import Mathlib

/-!
# Verification of `WindowExpression` rendering, equality and copying

Shallow embedding of
`src/duckdb/src/include/duckdb/parser/expression/window_expression.hpp`.

The templated `WindowExpression::ToString` only ever interacts with its
sub-expressions (`children`, `partitions`, `orders`, `arg_orders`,
`filter_expr`, `start_expr`, `end_expr`, `offset_expr`, `default_expr`)
through their own `ToString()` method, so each sub-expression is embedded
by its rendered text (a `String`).  A `unique_ptr` that may be null is an
`Option String`; dereferencing a null pointer is undefined behaviour in the
source and is embedded as the distinguished error
`RenderErr.nullPointerDereference`, while `throw InternalException(msg)`
is embedded as `RenderErr.internalException msg`.  The renderer therefore
lives in `Except RenderErr String`.
-/

/-- `enum class WindowBoundary : uint8_t` of the source, all nine variants. -/
inductive WindowBoundary
  | INVALID
  | UNBOUNDED_PRECEDING
  | UNBOUNDED_FOLLOWING
  | CURRENT_ROW_RANGE
  | CURRENT_ROW_ROWS
  | EXPR_PRECEDING_ROWS
  | EXPR_FOLLOWING_ROWS
  | EXPR_PRECEDING_RANGE
  | EXPR_FOLLOWING_RANGE
  deriving DecidableEq, Repr

/-- `enum class WindowExcludeMode : uint8_t { NO_OTHER, CURRENT_ROW, GROUP, TIES }`. -/
inductive WindowExcludeMode
  | NO_OTHER
  | CURRENT_ROW
  | GROUP
  | TIES
  deriving DecidableEq, Repr

/-- Outcomes of the fallible parts of `ToString`: a thrown
`InternalException`, or dereferencing a null `unique_ptr`
(`entry.start_expr->ToString()` with `start_expr == nullptr`). -/
inductive RenderErr
  | internalException (msg : String)
  | nullPointerDereference
  deriving DecidableEq, Repr

/-- The fields of `WindowExpression` that the templated `ToString` reads,
with every sub-expression replaced by its rendered text.  `orders` and
`arg_orders` hold the rendered text of each `OrderByNode`.  The C++ member
`end` is spelled `end_` (`end` is a Lean keyword). -/
structure WindowExpressionEntry where
  children : List String
  offset_expr : Option String
  default_expr : Option String
  arg_orders : List String
  ignore_nulls : Bool
  distinct : Bool
  filter_expr : Option String
  partitions : List String
  orders : List String
  start : WindowBoundary
  end_ : WindowBoundary
  exclude_clause : WindowExcludeMode
  start_expr : Option String
  end_expr : Option String
  deriving DecidableEq, Repr

namespace WindowExpression

/-- The argument-list lambda of the source:
`int distincts = entry.distinct ? 0 : 1;` then each child is rendered as
`(distincts++ ? "" : "DISTINCT ") + child->ToString()`.  The counter `d`
is the running value of `distincts`. -/
def distinctMap : Nat → List String → List String
  | _, [] => []
  | d, c :: cs => ((if d = 0 then "DISTINCT " else "") ++ c) :: distinctMap (d + 1) cs

/-- Dereference of a possibly-null `unique_ptr<ParsedExpression>` followed by
`->ToString()`. -/
def deref : Option String → Except RenderErr String
  | some s => Except.ok s
  | none => Except.error RenderErr.nullPointerDereference

/-- The `switch (entry.start)` of the source (lines 156-179): computes the
`from` fragment and the value of `units` after the switch (`units` starts
as `"ROWS"` and each case either overwrites it or leaves it). -/
def fromSwitch (entry : WindowExpressionEntry) : Except RenderErr (String × String) :=
  match entry.start with
  | WindowBoundary.CURRENT_ROW_RANGE => Except.ok ("CURRENT ROW", "RANGE")
  | WindowBoundary.CURRENT_ROW_ROWS => Except.ok ("CURRENT ROW", "ROWS")
  | WindowBoundary.UNBOUNDED_PRECEDING =>
      Except.ok
        (if entry.end_ ≠ WindowBoundary.CURRENT_ROW_RANGE then "UNBOUNDED PRECEDING" else "",
          "ROWS")
  | WindowBoundary.EXPR_PRECEDING_ROWS => do
      let e ← deref entry.start_expr
      Except.ok (e ++ " PRECEDING", "ROWS")
  | WindowBoundary.EXPR_PRECEDING_RANGE => do
      let e ← deref entry.start_expr
      Except.ok (e ++ " PRECEDING", "RANGE")
  | WindowBoundary.EXPR_FOLLOWING_ROWS => do
      let e ← deref entry.start_expr
      Except.ok (e ++ " FOLLOWING", "ROWS")
  | WindowBoundary.EXPR_FOLLOWING_RANGE => do
      let e ← deref entry.start_expr
      Except.ok (e ++ " FOLLOWING", "RANGE")
  | _ => Except.error (RenderErr.internalException "Unrecognized FROM in WindowExpression")

/-- The `switch (entry.end)` of the source (lines 181-211): given the value
of `units` left by the FROM switch, computes the `to` fragment and the new
`units`. -/
def toSwitch (entry : WindowExpressionEntry) (units : String) :
    Except RenderErr (String × String) :=
  match entry.end_ with
  | WindowBoundary.CURRENT_ROW_RANGE =>
      Except.ok
        (if entry.start ≠ WindowBoundary.UNBOUNDED_PRECEDING then ("CURRENT ROW", "RANGE")
         else ("", units))
  | WindowBoundary.CURRENT_ROW_ROWS => Except.ok ("CURRENT ROW", "ROWS")
  | WindowBoundary.UNBOUNDED_PRECEDING => Except.ok ("UNBOUNDED PRECEDING", units)
  | WindowBoundary.UNBOUNDED_FOLLOWING => Except.ok ("UNBOUNDED FOLLOWING", units)
  | WindowBoundary.EXPR_PRECEDING_ROWS => do
      let e ← deref entry.end_expr
      Except.ok (e ++ " PRECEDING", "ROWS")
  | WindowBoundary.EXPR_PRECEDING_RANGE => do
      let e ← deref entry.end_expr
      Except.ok (e ++ " PRECEDING", "RANGE")
  | WindowBoundary.EXPR_FOLLOWING_ROWS => do
      let e ← deref entry.end_expr
      Except.ok (e ++ " FOLLOWING", "ROWS")
  | WindowBoundary.EXPR_FOLLOWING_RANGE => do
      let e ← deref entry.end_expr
      Except.ok (e ++ " FOLLOWING", "RANGE")
  | _ => Except.error (RenderErr.internalException "Unrecognized TO in WindowExpression")

/-- Lines 212-221 of the source: with an explicit EXCLUDE the empty `from`
is forced to `"UNBOUNDED PRECEDING"` and the empty `to` to `"CURRENT ROW"`
with `units = "RANGE"`. -/
def excludeForce (entry : WindowExpressionEntry) (f t units : String) :
    String × String × String :=
  if entry.exclude_clause ≠ WindowExcludeMode.NO_OTHER then
    let f := if f = "" then "UNBOUNDED PRECEDING" else f
    let tu := if t = "" then ("CURRENT ROW", "RANGE") else (t, units)
    (f, tu.1, tu.2)
  else (f, t, units)

/-- Lines 97-126 of the source: everything appended to `result` before the
FILTER branch, i.e. the function call text through `IGNORE NULLS`. -/
def headBeforeFilter (entry : WindowExpressionEntry) (schema function_name : String) : String :=
  let result := if schema = "" then function_name else schema ++ "." ++ function_name
  let result := result ++ "("
  let result :=
    if entry.children.length ≠ 0 then
      result ++
        String.intercalate ", " (distinctMap (if entry.distinct then 0 else 1) entry.children)
    else result
  let result :=
    match entry.offset_expr with
    | some e => result ++ ", " ++ e
    | none => result
  let result :=
    match entry.default_expr with
    | some e => result ++ ", " ++ e
    | none => result
  let result :=
    if entry.arg_orders ≠ [] then
      result ++ " ORDER BY " ++ String.intercalate ", " entry.arg_orders
    else result
  if entry.ignore_nulls then result ++ " IGNORE NULLS" else result

/-- Lines 97-133 of the source: everything appended to `result` before the
partition list, i.e. up to and including `") OVER ("` (lines 128-133: the
FILTER branch and the `") OVER ("` append). -/
def header (entry : WindowExpressionEntry) (schema function_name : String) : String :=
  let result := headBeforeFilter entry schema function_name
  let result :=
    match entry.filter_expr with
    | some f => result ++ ") FILTER (WHERE " ++ f
    | none => result
  result ++ ") OVER ("

/-- Lines 136-151 of the source: the PARTITION BY and ORDER BY clauses of
the OVER body, together with the separator string `sep` they leave behind. -/
def partitionOrders (entry : WindowExpressionEntry) : String × String :=
  let result := ""
  let sep := ""
  let ro :=
    if entry.partitions ≠ [] then
      (result ++ "PARTITION BY " ++ String.intercalate ", " entry.partitions, " ")
    else (result, sep)
  if entry.orders ≠ [] then
    (ro.1 ++ ro.2 ++ "ORDER BY " ++ String.intercalate ", " entry.orders, " ")
  else ro

/-- Lines 223-237 of the source: appends `sep + units` when a bound is
present, then the `BETWEEN`/single-bound text. -/
def frameText (sep f t units : String) : String :=
  let result := if f ≠ "" ∨ t ≠ "" then sep ++ units else ""
  if f ≠ "" ∧ t ≠ "" then result ++ " BETWEEN " ++ f ++ " AND " ++ t
  else if f ≠ "" then result ++ " " ++ f
  else if t ≠ "" then result ++ " " ++ t
  else result

/-- Lines 239-254 of the source: the EXCLUDE clause text. -/
def excludeText (entry : WindowExpressionEntry) : String :=
  let result := if entry.exclude_clause ≠ WindowExcludeMode.NO_OTHER then " EXCLUDE " else ""
  match entry.exclude_clause with
  | WindowExcludeMode.CURRENT_ROW => result ++ "CURRENT ROW"
  | WindowExcludeMode.GROUP => result ++ "GROUP"
  | WindowExcludeMode.TIES => result ++ "TIES"
  | WindowExcludeMode.NO_OTHER => result

/-- The templated `WindowExpression::ToString` (lines 95-259 of the source),
with the appends of the straight-line C++ grouped into the helper
definitions above in source order.  An exception thrown anywhere discards
the accumulated text, exactly as C++ stack unwinding does. -/
def ToString (entry : WindowExpressionEntry) (schema function_name : String) :
    Except RenderErr String := do
  let po := partitionOrders entry
  let fu ← fromSwitch entry
  let tu ← toSwitch entry fu.2
  let ftu := excludeForce entry fu.1 tu.1 tu.2
  Except.ok (header entry schema function_name ++ po.1 ++
    frameText po.2 ftu.1 ftu.2.1 ftu.2.2 ++ excludeText entry ++ ")")

end WindowExpression

/-- The four `EXPR_*` members of `WindowBoundary`: the boundary kinds whose
switch case dereferences `start_expr`/`end_expr` (source lines 167-176,
199-208). -/
def isExprBoundary : WindowBoundary → Bool
  | WindowBoundary.EXPR_PRECEDING_ROWS => true
  | WindowBoundary.EXPR_FOLLOWING_ROWS => true
  | WindowBoundary.EXPR_PRECEDING_RANGE => true
  | WindowBoundary.EXPR_FOLLOWING_RANGE => true
  | _ => false

/-- The BoundaryKind invariant of the spec, render-relevant half: whenever a
bound is an `EXPR_*` variant its offset expression is present. -/
def offsetsPresent (entry : WindowExpressionEntry) : Bool :=
  (!isExprBoundary entry.start || entry.start_expr.isSome) &&
    (!isExprBoundary entry.end_ || entry.end_expr.isSome)

/-- Modelled from the claim wording of C6: the frame units implied by a
boundary kind's `Rows`/`Range` suffix (meaningful for `CURRENT_ROW_ROWS` and
the four `EXPR_*` variants, the cases C6 quantifies over). -/
def endSuffixUnits : WindowBoundary → String
  | WindowBoundary.CURRENT_ROW_ROWS => "ROWS"
  | WindowBoundary.EXPR_PRECEDING_ROWS => "ROWS"
  | WindowBoundary.EXPR_FOLLOWING_ROWS => "ROWS"
  | WindowBoundary.EXPR_PRECEDING_RANGE => "RANGE"
  | WindowBoundary.EXPR_FOLLOWING_RANGE => "RANGE"
  | _ => ""

/-- An entry with every list empty, every pointer null, both flags off,
`start = end = INVALID`, `exclude = NO_OTHER`: the base the tests vary. -/
def baseEntry : WindowExpressionEntry :=
  { children := [], offset_expr := none, default_expr := none, arg_orders := []
    ignore_nulls := false, distinct := false, filter_expr := none
    partitions := [], orders := []
    start := WindowBoundary.INVALID, end_ := WindowBoundary.INVALID
    exclude_clause := WindowExcludeMode.NO_OTHER
    start_expr := none, end_expr := none }

/-!
## Equality and deep copy (`WindowExpression::Equal` / `WindowExpression::Copy`)

The header only declares `Equal` and `Copy`; their bodies live in a
translation unit that is not under `src/`, so they are modelled from the
spec (§4.2, §4.3, §8).  To make ownership and "shares no sub-expression"
expressible, every owned sub-expression is a handle (a `Nat` address) into
a heap mapping addresses to the node's content; two specs under the same
heap share a sub-expression exactly when they hold a common address. -/

/-- Addressable storage for expression-node contents. -/
abbrev Heap : Type := Nat → String

/-- A `WindowExpression` whose owned sub-expressions are heap handles:
the fields of the class (source lines 43-75), enumerations and flags by
value, every `unique_ptr`/`vector` element as an address. -/
structure WindowSpecH where
  catalog : String
  schema : String
  function_name : String
  children : List Nat
  partitions : List Nat
  orders : List Nat
  arg_orders : List Nat
  filter_expr : Option Nat
  start_expr : Option Nat
  end_expr : Option Nat
  offset_expr : Option Nat
  default_expr : Option Nat
  ignore_nulls : Bool
  distinct : Bool
  start : WindowBoundary
  end_ : WindowBoundary
  exclude_clause : WindowExcludeMode
  deriving DecidableEq, Repr

/-- The value of a `WindowSpecH` under a heap: every handle replaced by the
content it points to.  Two specs are structurally equal exactly when their
values coincide. -/
structure WindowSpecV where
  catalog : String
  schema : String
  function_name : String
  children : List String
  partitions : List String
  orders : List String
  arg_orders : List String
  filter_expr : Option String
  start_expr : Option String
  end_expr : Option String
  offset_expr : Option String
  default_expr : Option String
  ignore_nulls : Bool
  distinct : Bool
  start : WindowBoundary
  end_ : WindowBoundary
  exclude_clause : WindowExcludeMode
  deriving DecidableEq, Repr

/-- Read every owned node of `s` out of the heap. -/
def interp (h : Heap) (s : WindowSpecH) : WindowSpecV :=
  { catalog := s.catalog, schema := s.schema, function_name := s.function_name
    children := s.children.map h, partitions := s.partitions.map h
    orders := s.orders.map h, arg_orders := s.arg_orders.map h
    filter_expr := s.filter_expr.map h, start_expr := s.start_expr.map h
    end_expr := s.end_expr.map h, offset_expr := s.offset_expr.map h
    default_expr := s.default_expr.map h
    ignore_nulls := s.ignore_nulls, distinct := s.distinct
    start := s.start, end_ := s.end_, exclude_clause := s.exclude_clause }

/-- Every handle owned by `s`, in field order: arguments, partition keys,
order keys, argument order keys, filter, bound offsets, LEAD/LAG extras. -/
def handles (s : WindowSpecH) : List Nat :=
  s.children ++ s.partitions ++ s.orders ++ s.arg_orders ++
    s.filter_expr.toList ++ s.start_expr.toList ++ s.end_expr.toList ++
    s.offset_expr.toList ++ s.default_expr.toList

/-- Modelled from the spec: `WindowExpression::Equal` is declared at source
line 85 but defined outside `src/`.  Spec §4.2: true iff every field
compares equal, sequences element-wise in order, owned sub-expressions via
their structural equality — under a heap, equality of the interpreted
values. -/
def Equal (h : Heap) (a b : WindowSpecH) : Bool :=
  decide (interp h a = interp h b)

/-- Modelled from the spec: `WindowExpression::Copy` is declared at source
line 87 but defined outside `src/`.  Spec §4.3: the clone owns fresh deep
copies of every owned expression-node, enumerations and flags copied by
value.  Freshness is modelled by relabelling every handle by `· + base`;
when every handle of `s` lies below `base` the new addresses are disjoint
from the old. -/
def Copy (s : WindowSpecH) (base : Nat) : WindowSpecH :=
  { catalog := s.catalog, schema := s.schema, function_name := s.function_name
    children := s.children.map (· + base), partitions := s.partitions.map (· + base)
    orders := s.orders.map (· + base), arg_orders := s.arg_orders.map (· + base)
    filter_expr := s.filter_expr.map (· + base), start_expr := s.start_expr.map (· + base)
    end_expr := s.end_expr.map (· + base), offset_expr := s.offset_expr.map (· + base)
    default_expr := s.default_expr.map (· + base)
    ignore_nulls := s.ignore_nulls, distinct := s.distinct
    start := s.start, end_ := s.end_, exclude_clause := s.exclude_clause }

/-- Modelled from the spec, with `Copy`: the deep copy writes a copy of each
node's content at its fresh address (`base + a` holds a copy of node `a`)
and leaves every address below `base` untouched. -/
def copyHeap (h : Heap) (base : Nat) : Heap :=
  fun a => if a < base then h a else h (a - base)

/-- A concrete four-node spec used to witness the copy/equality claim. -/
def sampleSpecH : WindowSpecH :=
  { catalog := "", schema := "main", function_name := "sum"
    children := [0], partitions := [1], orders := [2], arg_orders := []
    filter_expr := some 3, start_expr := none, end_expr := none
    offset_expr := none, default_expr := none
    ignore_nulls := false, distinct := false
    start := WindowBoundary.UNBOUNDED_PRECEDING
    end_ := WindowBoundary.CURRENT_ROW_RANGE
    exclude_clause := WindowExcludeMode.NO_OTHER }

/-- A concrete heap for the witness: node `n` holds the text `eN`. -/
def sampleHeap : Heap :=
  fun a => "e" ++ Nat.repr a

/-- The full-default spec of the spec's elision test: `UNBOUNDED_PRECEDING`
to `CURRENT_ROW_RANGE`, no EXCLUDE, empty partition/order. -/
def elisionEntry : WindowExpressionEntry :=
  { baseEntry with
      start := WindowBoundary.UNBOUNDED_PRECEDING
      end_ := WindowBoundary.CURRENT_ROW_RANGE }

/-- The elision spec with `exclude = Ties`. -/
def tiesEntry : WindowExpressionEntry :=
  { elisionEntry with exclude_clause := WindowExcludeMode.TIES }

/-- Two arguments `a, b` with `distinct` set. -/
def distinctEntry : WindowExpressionEntry :=
  { elisionEntry with children := ["a", "b"], distinct := true }

/-- One argument `x` and a filter `p`. -/
def filterEntry : WindowExpressionEntry :=
  { elisionEntry with children := ["x"], filter_expr := some "p" }

/-- One argument `x`, no filter. -/
def noFilterEntry : WindowExpressionEntry :=
  { elisionEntry with children := ["x"] }

/-- `EXPR_PRECEDING_RANGE` start (offset `1`) against a `CURRENT_ROW_ROWS`
end: the C6 example where the end bound's suffix decides the units. -/
def mixedUnitsEntry : WindowExpressionEntry :=
  { baseEntry with
      start := WindowBoundary.EXPR_PRECEDING_RANGE
      start_expr := some "1"
      end_ := WindowBoundary.CURRENT_ROW_ROWS }

/-- An `EXPR_PRECEDING_ROWS` start whose offset expression is absent. -/
def missingOffsetEntry : WindowExpressionEntry :=
  { baseEntry with
      start := WindowBoundary.EXPR_PRECEDING_ROWS
      end_ := WindowBoundary.CURRENT_ROW_ROWS }

/-- An `EXPR_PRECEDING_ROWS` start whose offset expression is absent,
combined with an `INVALID` end. -/
def missingOffsetInvalidEndEntry : WindowExpressionEntry :=
  { baseEntry with
      start := WindowBoundary.EXPR_PRECEDING_ROWS
      end_ := WindowBoundary.INVALID }

/-!
## Helper lemmas
-/

/-- A string with a non-empty suffix is non-empty. -/
theorem append_right_ne_empty (s t : String) (ht : t.length ≠ 0) : s ++ t ≠ "" := by
  intro hc
  have hl := congrArg String.length hc
  rw [String.length_append] at hl
  have h0 : ("" : String).length = 0 := rfl
  omega

/-- After the first argument the `distincts` counter is positive, so no
later child ever receives the `"DISTINCT "` prefix. -/
theorem distinctMap_pos (d : Nat) (cs : List String) (hd : d ≠ 0) :
    WindowExpression.distinctMap d cs = cs := by
  induction cs generalizing d with
  | nil => rfl
  | cons c cs ih =>
      simp [WindowExpression.distinctMap, hd, ih (d + 1) (by omega)]

/-- Unfolding a successful bind of the render monad. -/
theorem excBindOk {α β : Type} (v : α) (k : α → Except RenderErr β) :
    (Except.ok v >>= k) = k v := rfl

/-- Unfolding a failed bind of the render monad. -/
theorem excBindErr {α β : Type} (m : RenderErr) (k : α → Except RenderErr β) :
    ((Except.error m : Except RenderErr α) >>= k) = Except.error m := rfl

/-- The `from` fragment of the FROM switch is empty exactly for the
`UNBOUNDED_PRECEDING`/`CURRENT_ROW_RANGE` elision pair. -/
theorem fromSwitch_empty_iff (entry : WindowExpressionEntry) (f u : String)
    (hf : WindowExpression.fromSwitch entry = Except.ok (f, u)) :
    f = "" ↔
      entry.start = WindowBoundary.UNBOUNDED_PRECEDING ∧
        entry.end_ = WindowBoundary.CURRENT_ROW_RANGE := by
  cases hs : entry.start <;>
      simp only [WindowExpression.fromSwitch, hs] at hf
  case INVALID => simp at hf
  case UNBOUNDED_FOLLOWING => simp at hf
  case UNBOUNDED_PRECEDING =>
      by_cases he : entry.end_ = WindowBoundary.CURRENT_ROW_RANGE
      · simp only [he, ne_eq, not_true_eq_false, if_false, Except.ok.injEq,
          Prod.mk.injEq] at hf
        obtain ⟨rfl, rfl⟩ := hf
        simp [hs, he]
      · simp only [he, ne_eq, not_false_eq_true, if_true, Except.ok.injEq,
          Prod.mk.injEq] at hf
        obtain ⟨rfl, rfl⟩ := hf
        simp [hs, he]
  case CURRENT_ROW_RANGE =>
      simp only [Except.ok.injEq, Prod.mk.injEq] at hf
      obtain ⟨rfl, rfl⟩ := hf
      simp [hs]
  case CURRENT_ROW_ROWS =>
      simp only [Except.ok.injEq, Prod.mk.injEq] at hf
      obtain ⟨rfl, rfl⟩ := hf
      simp [hs]
  all_goals
    cases hse : entry.start_expr with
    | none =>
        rw [hse] at hf
        simp only [WindowExpression.deref, excBindErr] at hf
        exact absurd hf (by simp)
    | some e =>
        rw [hse] at hf
        simp only [WindowExpression.deref, excBindOk, Except.ok.injEq, Prod.mk.injEq] at hf
        obtain ⟨rfl, rfl⟩ := hf
        exact iff_of_false (append_right_ne_empty e _ (by decide))
          (fun hc => absurd hc.1 (by decide))

/-- The `to` fragment of the TO switch is empty exactly for the mirrored
elision pair. -/
theorem toSwitch_empty_iff (entry : WindowExpressionEntry) (t u u' : String)
    (ht : WindowExpression.toSwitch entry u = Except.ok (t, u')) :
    t = "" ↔
      entry.end_ = WindowBoundary.CURRENT_ROW_RANGE ∧
        entry.start = WindowBoundary.UNBOUNDED_PRECEDING := by
  cases he : entry.end_ <;>
      simp only [WindowExpression.toSwitch, he] at ht
  case INVALID => simp at ht
  case UNBOUNDED_PRECEDING =>
      simp only [Except.ok.injEq, Prod.mk.injEq] at ht
      obtain ⟨rfl, rfl⟩ := ht
      simp [he]
  case UNBOUNDED_FOLLOWING =>
      simp only [Except.ok.injEq, Prod.mk.injEq] at ht
      obtain ⟨rfl, rfl⟩ := ht
      simp [he]
  case CURRENT_ROW_RANGE =>
      by_cases hs : entry.start = WindowBoundary.UNBOUNDED_PRECEDING
      · simp only [hs, ne_eq, not_true_eq_false, if_false, Except.ok.injEq,
          Prod.mk.injEq] at ht
        obtain ⟨rfl, rfl⟩ := ht
        simp [hs, he]
      · simp only [hs, ne_eq, not_false_eq_true, if_true, Except.ok.injEq,
          Prod.mk.injEq] at ht
        obtain ⟨rfl, rfl⟩ := ht
        simp [hs, he]
  case CURRENT_ROW_ROWS =>
      simp only [Except.ok.injEq, Prod.mk.injEq] at ht
      obtain ⟨rfl, rfl⟩ := ht
      simp [he]
  all_goals
    cases hee : entry.end_expr with
    | none =>
        rw [hee] at ht
        simp only [WindowExpression.deref, excBindErr] at ht
        exact absurd ht (by simp)
    | some e =>
        rw [hee] at ht
        simp only [WindowExpression.deref, excBindOk, Except.ok.injEq, Prod.mk.injEq] at ht
        obtain ⟨rfl, rfl⟩ := ht
        exact iff_of_false (append_right_ne_empty e _ (by decide))
          (fun hc => absurd hc.1 (by decide))

/-!
## Claim theorems
-/

/-- C1: for every spec with valid boundaries the rendered `from` fragment is
empty (start bound elided) exactly when `frameStart = UNBOUNDED_PRECEDING`
and `frameEnd = CURRENT_ROW_RANGE`, and the `to` fragment is empty exactly
in the mirrored situation; the full-default spec (that pair, no EXCLUDE,
empty partition/order) renders `"func() OVER ()"`, whose text contains no
`ROWS`, `RANGE` or `BETWEEN`. -/
theorem spec_c1 (entry : WindowExpressionEntry) (f t u u' : String)
    (hf : WindowExpression.fromSwitch entry = Except.ok (f, u))
    (ht : WindowExpression.toSwitch entry u = Except.ok (t, u')) :
    (f = "" ↔
        entry.start = WindowBoundary.UNBOUNDED_PRECEDING ∧
          entry.end_ = WindowBoundary.CURRENT_ROW_RANGE) ∧
    (t = "" ↔
        entry.end_ = WindowBoundary.CURRENT_ROW_RANGE ∧
          entry.start = WindowBoundary.UNBOUNDED_PRECEDING) ∧
    WindowExpression.ToString elisionEntry "" "func" = Except.ok "func() OVER ()" ∧
    ¬ ("ROWS".data <:+: "func() OVER ()".data) ∧
    ¬ ("RANGE".data <:+: "func() OVER ()".data) ∧
    ¬ ("BETWEEN".data <:+: "func() OVER ()".data) :=
  ⟨fromSwitch_empty_iff entry f u hf, toSwitch_empty_iff entry t u u' ht,
    rfl, by decide, by decide, by decide⟩

/-- Witness for C1 at the full-default spec itself. -/
theorem spec_c1_witness :
    (("" : String) = "" ↔
        elisionEntry.start = WindowBoundary.UNBOUNDED_PRECEDING ∧
          elisionEntry.end_ = WindowBoundary.CURRENT_ROW_RANGE) ∧
    (("" : String) = "" ↔
        elisionEntry.end_ = WindowBoundary.CURRENT_ROW_RANGE ∧
          elisionEntry.start = WindowBoundary.UNBOUNDED_PRECEDING) ∧
    WindowExpression.ToString elisionEntry "" "func" = Except.ok "func() OVER ()" ∧
    ¬ ("ROWS".data <:+: "func() OVER ()".data) ∧
    ¬ ("RANGE".data <:+: "func() OVER ()".data) ∧
    ¬ ("BETWEEN".data <:+: "func() OVER ()".data) :=
  spec_c1 elisionEntry "" "" "ROWS" "ROWS" rfl rfl

/-- C2: with `exclude ≠ NO_OTHER` the EXCLUDE-forcing step turns an empty
`from` into `"UNBOUNDED PRECEDING"` and an empty `to` into `"CURRENT ROW"`
with units `"RANGE"` (leaving non-empty fragments untouched), so both
fragments end up non-empty; the elision spec with `exclude = Ties` renders
the full `RANGE BETWEEN ... EXCLUDE TIES` clause. -/
theorem spec_c2 (entry : WindowExpressionEntry) (f t u : String)
    (hex : entry.exclude_clause ≠ WindowExcludeMode.NO_OTHER) :
    ((WindowExpression.excludeForce entry f t u).1 =
        if f = "" then "UNBOUNDED PRECEDING" else f) ∧
    ((WindowExpression.excludeForce entry f t u).2.1 =
        if t = "" then "CURRENT ROW" else t) ∧
    ((WindowExpression.excludeForce entry f t u).2.2 =
        if t = "" then "RANGE" else u) ∧
    (WindowExpression.excludeForce entry f t u).1 ≠ "" ∧
    (WindowExpression.excludeForce entry f t u).2.1 ≠ "" ∧
    WindowExpression.ToString tiesEntry "" "func" =
      Except.ok
        "func() OVER (RANGE BETWEEN UNBOUNDED PRECEDING AND CURRENT ROW EXCLUDE TIES)" := by
  refine ⟨?_, ?_, ?_, ?_, ?_, rfl⟩ <;>
    by_cases hf : f = "" <;> by_cases ht : t = "" <;>
      simp [WindowExpression.excludeForce, hex, hf, ht]

/-- Witness for C2 at the Ties spec with both fragments empty. -/
theorem spec_c2_witness :
    ((WindowExpression.excludeForce tiesEntry "" "" "ROWS").1 =
        if ("" : String) = "" then "UNBOUNDED PRECEDING" else "") ∧
    ((WindowExpression.excludeForce tiesEntry "" "" "ROWS").2.1 =
        if ("" : String) = "" then "CURRENT ROW" else "") ∧
    ((WindowExpression.excludeForce tiesEntry "" "" "ROWS").2.2 =
        if ("" : String) = "" then "RANGE" else "ROWS") ∧
    (WindowExpression.excludeForce tiesEntry "" "" "ROWS").1 ≠ "" ∧
    (WindowExpression.excludeForce tiesEntry "" "" "ROWS").2.1 ≠ "" ∧
    WindowExpression.ToString tiesEntry "" "func" =
      Except.ok
        "func() OVER (RANGE BETWEEN UNBOUNDED PRECEDING AND CURRENT ROW EXCLUDE TIES)" :=
  spec_c2 tiesEntry "" "" "ROWS" (by decide)

/-- C7: with `distinct` set the first argument alone receives the
`"DISTINCT "` prefix (the `distincts` counter is positive from the second
argument on, whatever the length of the list), and the two-argument example
renders `"func(DISTINCT a, b) OVER ()"`. -/
theorem spec_c7 (a : String) (rest : List String) (d : Nat) (hd : d ≠ 0) :
    WindowExpression.distinctMap 0 (a :: rest) = ("DISTINCT " ++ a) :: rest ∧
    WindowExpression.distinctMap d rest = rest ∧
    WindowExpression.ToString distinctEntry "" "func" =
      Except.ok "func(DISTINCT a, b) OVER ()" := by
  refine ⟨?_, distinctMap_pos d rest hd, rfl⟩
  simp [WindowExpression.distinctMap, distinctMap_pos 1 rest (by omega)]

/-- Witness for C7 at the two-argument list `a, b`. -/
theorem spec_c7_witness :
    WindowExpression.distinctMap 0 ["a", "b"] = ["DISTINCT " ++ "a", "b"] ∧
    WindowExpression.distinctMap 1 ["b"] = ["b"] ∧
    WindowExpression.ToString distinctEntry "" "func" =
      Except.ok "func(DISTINCT a, b) OVER ()" :=
  spec_c7 "a" ["b"] 1 (by decide)

/-- C9: rendering is deterministic — `ToString` is a pure function of the
spec (its sub-expressions embedded by their fixed rendered text), so two
invocations on the same unmutated spec yield identical text. -/
theorem spec_c9 (entry : WindowExpressionEntry) (schema function_name : String) :
    WindowExpression.ToString entry schema function_name =
      WindowExpression.ToString entry schema function_name := rfl

/-- Unfolding of `ToString` into its two fallible switches and the pure
text assembly. -/
theorem ToString_def (entry : WindowExpressionEntry) (schema function_name : String) :
    WindowExpression.ToString entry schema function_name =
      WindowExpression.fromSwitch entry >>= fun fu =>
        WindowExpression.toSwitch entry fu.2 >>= fun tu =>
          Except.ok (WindowExpression.header entry schema function_name ++
            (WindowExpression.partitionOrders entry).1 ++
            WindowExpression.frameText (WindowExpression.partitionOrders entry).2
              (WindowExpression.excludeForce entry fu.1 tu.1 tu.2).1
              (WindowExpression.excludeForce entry fu.1 tu.1 tu.2).2.1
              (WindowExpression.excludeForce entry fu.1 tu.1 tu.2).2.2 ++
            WindowExpression.excludeText entry ++ ")") := rfl

/-- With an explicit EXCLUDE the forced `to` keeps its units when the `to`
fragment was already non-empty, and without EXCLUDE nothing changes. -/
theorem excludeForce_units_of_ne (entry : WindowExpressionEntry) (f t u : String)
    (htne : t ≠ "") :
    (WindowExpression.excludeForce entry f t u).2.2 = u := by
  by_cases hex : entry.exclude_clause = WindowExcludeMode.NO_OTHER <;>
    simp [WindowExpression.excludeForce, hex, htne]

/-- C5: for every spec with valid boundaries, after the EXCLUDE-forcing the
`from` fragment is empty iff the `to` fragment is, so the frame text is
either a full `<units> BETWEEN <from> AND <to>` clause or absent entirely —
the single-bound output branches of lines 231-237 are unreachable. -/
theorem spec_c5 (entry : WindowExpressionEntry) (sep f t u u' f' t' u'' : String)
    (hf : WindowExpression.fromSwitch entry = Except.ok (f, u))
    (ht : WindowExpression.toSwitch entry u = Except.ok (t, u'))
    (hef : WindowExpression.excludeForce entry f t u' = (f', t', u'')) :
    (f' = "" ↔ t' = "") ∧
    (WindowExpression.frameText sep f' t' u'' = "" ∨
      WindowExpression.frameText sep f' t' u'' =
        sep ++ u'' ++ " BETWEEN " ++ f' ++ " AND " ++ t') := by
  have hiff : f = "" ↔ t = "" := by
    rw [fromSwitch_empty_iff entry f u hf, toSwitch_empty_iff entry t u u' ht]
    constructor
    · exact fun hx => ⟨hx.2, hx.1⟩
    · exact fun hx => ⟨hx.2, hx.1⟩
  have hiff' : f' = "" ↔ t' = "" := by
    by_cases hex : entry.exclude_clause = WindowExcludeMode.NO_OTHER
    · simp only [WindowExpression.excludeForce, hex, ne_eq, not_true_eq_false,
        if_false, Prod.mk.injEq] at hef
      obtain ⟨rfl, rfl, rfl⟩ := hef
      exact hiff
    · by_cases hfe : f = "" <;> by_cases hte : t = "" <;>
        simp only [WindowExpression.excludeForce, hex, ne_eq, not_false_eq_true,
          if_true, hfe, hte, if_false, Prod.mk.injEq] at hef <;>
        obtain ⟨rfl, rfl, rfl⟩ := hef <;>
        simp_all
  refine ⟨hiff', ?_⟩
  by_cases hf0 : f' = ""
  · have ht0 : t' = "" := hiff'.mp hf0
    left
    simp [WindowExpression.frameText, hf0, ht0]
  · have ht0 : t' ≠ "" := fun hc => hf0 (hiff'.mpr hc)
    right
    simp [WindowExpression.frameText, hf0, ht0]

/-- Witness for C5 at the full-default spec. -/
theorem spec_c5_witness :
    (("" : String) = "" ↔ ("" : String) = "") ∧
    (WindowExpression.frameText "" "" "" "ROWS" = "" ∨
      WindowExpression.frameText "" "" "" "ROWS" =
        "" ++ "ROWS" ++ " BETWEEN " ++ "" ++ " AND " ++ "") :=
  spec_c5 elisionEntry "" "" "" "ROWS" "ROWS" "" "" "ROWS" rfl rfl rfl

/-- C6: when `frameEnd` is `CURRENT_ROW_ROWS` or one of the four `EXPR_*`
variants, the TO switch overwrites `units` with the units implied by the
end bound's `Rows`/`Range` suffix, whatever the FROM switch left there; the
`to` fragment is then non-empty, so the EXCLUDE-forcing step keeps those
units and they are the ones printed.  Concretely,
`EXPR_PRECEDING_RANGE` start with `CURRENT_ROW_ROWS` end prints `ROWS`. -/
theorem spec_c6 (entry : WindowExpressionEntry) (f t u u' : String)
    (hend : entry.end_ = WindowBoundary.CURRENT_ROW_ROWS ∨
      entry.end_ = WindowBoundary.EXPR_PRECEDING_ROWS ∨
      entry.end_ = WindowBoundary.EXPR_FOLLOWING_ROWS ∨
      entry.end_ = WindowBoundary.EXPR_PRECEDING_RANGE ∨
      entry.end_ = WindowBoundary.EXPR_FOLLOWING_RANGE)
    (ht : WindowExpression.toSwitch entry u = Except.ok (t, u')) :
    u' = endSuffixUnits entry.end_ ∧ t ≠ "" ∧
    (WindowExpression.excludeForce entry f t u').2.2 = endSuffixUnits entry.end_ ∧
    WindowExpression.ToString mixedUnitsEntry "" "func" =
      Except.ok "func() OVER (ROWS BETWEEN 1 PRECEDING AND CURRENT ROW)" := by
  have key : u' = endSuffixUnits entry.end_ ∧ t ≠ "" := by
    rcases hend with he | he | he | he | he <;>
        rw [he] <;>
        simp only [WindowExpression.toSwitch, he] at ht
    case inl =>
      simp only [Except.ok.injEq, Prod.mk.injEq] at ht
      obtain ⟨rfl, rfl⟩ := ht
      exact ⟨rfl, by decide⟩
    all_goals
      cases hee : entry.end_expr with
      | none =>
          rw [hee] at ht
          simp only [WindowExpression.deref, excBindErr] at ht
          exact absurd ht (by simp)
      | some e =>
          rw [hee] at ht
          simp only [WindowExpression.deref, excBindOk, Except.ok.injEq, Prod.mk.injEq] at ht
          obtain ⟨rfl, rfl⟩ := ht
          exact ⟨rfl, append_right_ne_empty e _ (by decide)⟩
  refine ⟨key.1, key.2, ?_, rfl⟩
  rw [excludeForce_units_of_ne entry f t u' key.2, key.1]

/-- Witness for C6 at the mixed-units spec. -/
theorem spec_c6_witness :
    ("ROWS" : String) = endSuffixUnits mixedUnitsEntry.end_ ∧
    ("CURRENT ROW" : String) ≠ "" ∧
    (WindowExpression.excludeForce mixedUnitsEntry "1 PRECEDING" "CURRENT ROW" "ROWS").2.2 =
      endSuffixUnits mixedUnitsEntry.end_ ∧
    WindowExpression.ToString mixedUnitsEntry "" "func" =
      Except.ok "func() OVER (ROWS BETWEEN 1 PRECEDING AND CURRENT ROW)" :=
  spec_c6 mixedUnitsEntry "1 PRECEDING" "CURRENT ROW" "RANGE" "ROWS" (Or.inl rfl) rfl

/-- C8: with a filter present the function call's closing parenthesis is
emitted just before the FILTER clause (the header ends in
`") FILTER (WHERE <p>) OVER ("`); without a filter it is emitted
immediately before `" OVER ("`.  Concretely, one argument `x` with filter
`p` renders `"func(x) FILTER (WHERE p) OVER ()"`, and without the filter
`"func(x) OVER ()"`. -/
theorem spec_c8 (entry entry2 : WindowExpressionEntry) (p schema function_name : String)
    (hfil : entry.filter_expr = some p)
    (hnof : entry2.filter_expr = none) :
    WindowExpression.header entry schema function_name =
      WindowExpression.headBeforeFilter entry schema function_name ++
        ") FILTER (WHERE " ++ p ++ ") OVER (" ∧
    WindowExpression.header entry2 schema function_name =
      WindowExpression.headBeforeFilter entry2 schema function_name ++ ") OVER (" ∧
    WindowExpression.ToString filterEntry "" "func" =
      Except.ok "func(x) FILTER (WHERE p) OVER ()" ∧
    WindowExpression.ToString noFilterEntry "" "func" = Except.ok "func(x) OVER ()" := by
  refine ⟨?_, ?_, rfl, rfl⟩ <;> simp [WindowExpression.header, hfil, hnof]

/-- Witness for C8 at the one-argument filter spec. -/
theorem spec_c8_witness :
    WindowExpression.header filterEntry "" "func" =
      WindowExpression.headBeforeFilter filterEntry "" "func" ++
        ") FILTER (WHERE " ++ "p" ++ ") OVER (" ∧
    WindowExpression.header noFilterEntry "" "func" =
      WindowExpression.headBeforeFilter noFilterEntry "" "func" ++ ") OVER (" ∧
    WindowExpression.ToString filterEntry "" "func" =
      Except.ok "func(x) FILTER (WHERE p) OVER ()" ∧
    WindowExpression.ToString noFilterEntry "" "func" = Except.ok "func(x) OVER ()" :=
  spec_c8 filterEntry noFilterEntry "p" "" "func" rfl rfl

/-- An `EXPR_*` start bound with a null `start_expr` makes the FROM switch
dereference a null pointer. -/
theorem fromSwitch_nullDeref (entry : WindowExpressionEntry)
    (hs : isExprBoundary entry.start = true) (hn : entry.start_expr = none) :
    WindowExpression.fromSwitch entry = Except.error RenderErr.nullPointerDereference := by
  cases h : entry.start <;> rw [h] at hs <;> simp only [isExprBoundary] at hs <;>
    try exact absurd hs (by decide)
  all_goals
    simp [WindowExpression.fromSwitch, h, hn, WindowExpression.deref, excBindErr]

/-- An `EXPR_*` end bound with a null `end_expr` makes the TO switch
dereference a null pointer. -/
theorem toSwitch_nullDeref (entry : WindowExpressionEntry) (u : String)
    (hs : isExprBoundary entry.end_ = true) (hn : entry.end_expr = none) :
    WindowExpression.toSwitch entry u = Except.error RenderErr.nullPointerDereference := by
  cases h : entry.end_ <;> rw [h] at hs <;> simp only [isExprBoundary] at hs <;>
    try exact absurd hs (by decide)
  all_goals
    simp [WindowExpression.toSwitch, h, hn, WindowExpression.deref, excBindErr]

/-- The FROM switch either throws the FROM internal error (exactly on
`INVALID`/`UNBOUNDED_FOLLOWING`) or succeeds, provided a required start
offset is present. -/
theorem fromSwitch_total (entry : WindowExpressionEntry)
    (hp : isExprBoundary entry.start = true → entry.start_expr.isSome = true) :
    (entry.start = WindowBoundary.INVALID ∨
        entry.start = WindowBoundary.UNBOUNDED_FOLLOWING) ∧
      WindowExpression.fromSwitch entry =
        Except.error (RenderErr.internalException "Unrecognized FROM in WindowExpression") ∨
    ¬(entry.start = WindowBoundary.INVALID ∨
        entry.start = WindowBoundary.UNBOUNDED_FOLLOWING) ∧
      ∃ p, WindowExpression.fromSwitch entry = Except.ok p := by
  cases h : entry.start
  case INVALID =>
    exact Or.inl ⟨Or.inl rfl, by simp [WindowExpression.fromSwitch, h]⟩
  case UNBOUNDED_FOLLOWING =>
    exact Or.inl ⟨Or.inr rfl, by simp [WindowExpression.fromSwitch, h]⟩
  case UNBOUNDED_PRECEDING =>
    refine Or.inr ⟨by simp, ?_⟩
    simp only [WindowExpression.fromSwitch, h]
    exact ⟨_, rfl⟩
  case CURRENT_ROW_RANGE =>
    refine Or.inr ⟨by simp, ?_⟩
    simp only [WindowExpression.fromSwitch, h]
    exact ⟨_, rfl⟩
  case CURRENT_ROW_ROWS =>
    refine Or.inr ⟨by simp, ?_⟩
    simp only [WindowExpression.fromSwitch, h]
    exact ⟨_, rfl⟩
  all_goals
    rw [h] at hp
    simp only [isExprBoundary, true_implies] at hp
    cases hse : entry.start_expr with
    | none => rw [hse] at hp; exact absurd hp (by simp)
    | some e =>
        refine Or.inr ⟨by simp, ?_⟩
        simp only [WindowExpression.fromSwitch, h, hse, WindowExpression.deref, excBindOk]
        exact ⟨_, rfl⟩

/-- The TO switch either throws the TO internal error (exactly on `INVALID`)
or succeeds, provided a required end offset is present. -/
theorem toSwitch_total (entry : WindowExpressionEntry) (u : String)
    (hp : isExprBoundary entry.end_ = true → entry.end_expr.isSome = true) :
    entry.end_ = WindowBoundary.INVALID ∧
      WindowExpression.toSwitch entry u =
        Except.error (RenderErr.internalException "Unrecognized TO in WindowExpression") ∨
    ¬ entry.end_ = WindowBoundary.INVALID ∧
      ∃ p, WindowExpression.toSwitch entry u = Except.ok p := by
  cases h : entry.end_
  case INVALID =>
    exact Or.inl ⟨rfl, by simp [WindowExpression.toSwitch, h]⟩
  case UNBOUNDED_PRECEDING =>
    refine Or.inr ⟨by simp, ?_⟩
    simp only [WindowExpression.toSwitch, h]
    exact ⟨_, rfl⟩
  case UNBOUNDED_FOLLOWING =>
    refine Or.inr ⟨by simp, ?_⟩
    simp only [WindowExpression.toSwitch, h]
    exact ⟨_, rfl⟩
  case CURRENT_ROW_RANGE =>
    refine Or.inr ⟨by simp, ?_⟩
    simp only [WindowExpression.toSwitch, h]
    exact ⟨_, rfl⟩
  case CURRENT_ROW_ROWS =>
    refine Or.inr ⟨by simp, ?_⟩
    simp only [WindowExpression.toSwitch, h]
    exact ⟨_, rfl⟩
  all_goals
    rw [h] at hp
    simp only [isExprBoundary, true_implies] at hp
    cases hee : entry.end_expr with
    | none => rw [hee] at hp; exact absurd hp (by simp)
    | some e =>
        refine Or.inr ⟨by simp, ?_⟩
        simp only [WindowExpression.toSwitch, h, hee, WindowExpression.deref, excBindOk]
        exact ⟨_, rfl⟩

/-- C3 counterexample: at a spec whose `EXPR_PRECEDING_ROWS` start lacks its
offset expression, render does not fail with the internal-consistency
error — it dereferences the null `start_expr` (undefined behaviour /
crash in the C++), refuting the claim that such specs fail with a
non-recoverable internal error rather than crashing. -/
theorem spec_c3_counterexample :
    isExprBoundary missingOffsetEntry.start = true ∧
    missingOffsetEntry.start_expr = none ∧
    WindowExpression.ToString missingOffsetEntry "" "func" =
      Except.error RenderErr.nullPointerDereference ∧
    RenderErr.nullPointerDereference ≠
      RenderErr.internalException "Unrecognized FROM in WindowExpression" :=
  ⟨rfl, rfl, rfl, by decide⟩

/-- C3 amended: a spec whose `EXPR_*` boundary lacks its offset expression
never renders text, and the failure is discriminated exactly: a missing
start offset always dereferences the null pointer (crash), never the
internal-consistency error; with the start offset not missing, a missing
end offset also crashes on the null dereference — unless the start bound
is itself `INVALID`/`UNBOUNDED_FOLLOWING`, the one case where the FROM
internal error fires first. -/
theorem spec_c3_amended (entry : WindowExpressionEntry) (schema function_name : String)
    (h : isExprBoundary entry.start = true ∧ entry.start_expr = none ∨
      isExprBoundary entry.end_ = true ∧ entry.end_expr = none) :
    WindowExpression.ToString entry schema function_name =
      if isExprBoundary entry.start = true ∧ entry.start_expr = none then
        Except.error RenderErr.nullPointerDereference
      else if entry.start = WindowBoundary.INVALID ∨
          entry.start = WindowBoundary.UNBOUNDED_FOLLOWING then
        Except.error (RenderErr.internalException "Unrecognized FROM in WindowExpression")
      else Except.error RenderErr.nullPointerDereference := by
  by_cases hsb : isExprBoundary entry.start = true ∧ entry.start_expr = none
  · rw [if_pos hsb, ToString_def, fromSwitch_nullDeref entry hsb.1 hsb.2]
    exact excBindErr _ _
  · rw [if_neg hsb]
    have hend : isExprBoundary entry.end_ = true ∧ entry.end_expr = none := by
      rcases h with hx | hx
      · exact absurd hx hsb
      · exact hx
    by_cases hbad : entry.start = WindowBoundary.INVALID ∨
        entry.start = WindowBoundary.UNBOUNDED_FOLLOWING
    · rw [if_pos hbad]
      have hfe : WindowExpression.fromSwitch entry =
          Except.error (RenderErr.internalException "Unrecognized FROM in WindowExpression") := by
        rcases hbad with hx | hx <;> simp [WindowExpression.fromSwitch, hx]
      rw [ToString_def, hfe]
      exact excBindErr _ _
    · rw [if_neg hbad]
      have hp : isExprBoundary entry.start = true → entry.start_expr.isSome = true := by
        intro hx
        cases hse : entry.start_expr with
        | none => exact absurd ⟨hx, hse⟩ hsb
        | some e => rfl
      rcases fromSwitch_total entry hp with ⟨hb2, hfe⟩ | ⟨hgood, fu, hfok⟩
      · exact absurd hb2 hbad
      · rw [ToString_def, hfok, excBindOk, toSwitch_nullDeref entry fu.2 hend.1 hend.2]
        exact excBindErr _ _

/-- Witness for the amended C3 at the missing-start-offset spec. -/
theorem spec_c3_amended_witness :
    WindowExpression.ToString missingOffsetEntry "" "func" =
      if isExprBoundary missingOffsetEntry.start = true ∧
          missingOffsetEntry.start_expr = none then
        Except.error RenderErr.nullPointerDereference
      else if missingOffsetEntry.start = WindowBoundary.INVALID ∨
          missingOffsetEntry.start = WindowBoundary.UNBOUNDED_FOLLOWING then
        Except.error (RenderErr.internalException "Unrecognized FROM in WindowExpression")
      else Except.error RenderErr.nullPointerDereference :=
  spec_c3_amended missingOffsetEntry "" "func" (by decide)

/-- C4 counterexample: a spec with `frameEnd = INVALID` whose
`EXPR_PRECEDING_ROWS` start lacks its offset expression does not raise the
internal error — the null dereference of the start offset happens first,
refuting the unconditional "whenever frameEnd is Invalid" half of C4. -/
theorem spec_c4_counterexample :
    missingOffsetInvalidEndEntry.end_ = WindowBoundary.INVALID ∧
    WindowExpression.ToString missingOffsetInvalidEndEntry "" "func" =
      Except.error RenderErr.nullPointerDereference ∧
    RenderErr.nullPointerDereference ≠
      RenderErr.internalException "Unrecognized TO in WindowExpression" :=
  ⟨rfl, rfl, by decide⟩

/-- C4 amended: provided every required `Expr*` offset is present, render
fails exactly when `frameStart` is `INVALID`/`UNBOUNDED_FOLLOWING` or
`frameEnd` is `INVALID`; the FROM internal error is raised exactly for the
former, the TO internal error exactly when the start bound is fine and the
end is `INVALID`, and every other spec renders normally. -/
theorem spec_c4_amended (entry : WindowExpressionEntry) (schema function_name : String)
    (hoff : offsetsPresent entry = true) :
    ((WindowExpression.ToString entry schema function_name).isOk = false ↔
      entry.start = WindowBoundary.INVALID ∨
        entry.start = WindowBoundary.UNBOUNDED_FOLLOWING ∨
        entry.end_ = WindowBoundary.INVALID) ∧
    (WindowExpression.ToString entry schema function_name =
        Except.error (RenderErr.internalException "Unrecognized FROM in WindowExpression") ↔
      entry.start = WindowBoundary.INVALID ∨
        entry.start = WindowBoundary.UNBOUNDED_FOLLOWING) ∧
    (WindowExpression.ToString entry schema function_name =
        Except.error (RenderErr.internalException "Unrecognized TO in WindowExpression") ↔
      ¬(entry.start = WindowBoundary.INVALID ∨
          entry.start = WindowBoundary.UNBOUNDED_FOLLOWING) ∧
        entry.end_ = WindowBoundary.INVALID) := by
  have hmsg : RenderErr.internalException "Unrecognized FROM in WindowExpression" ≠
      RenderErr.internalException "Unrecognized TO in WindowExpression" := by decide
  have hp1 : isExprBoundary entry.start = true → entry.start_expr.isSome = true := by
    intro hx
    have hcopy := hoff
    simp [offsetsPresent, hx] at hcopy
    exact hcopy.1
  have hp2 : isExprBoundary entry.end_ = true → entry.end_expr.isSome = true := by
    intro hx
    have hcopy := hoff
    simp [offsetsPresent, hx] at hcopy
    exact hcopy.2
  rcases fromSwitch_total entry hp1 with ⟨hbad, hfe⟩ | ⟨hgood, fu, hfok⟩
  · have hts : WindowExpression.ToString entry schema function_name =
        Except.error (RenderErr.internalException "Unrecognized FROM in WindowExpression") := by
      rw [ToString_def, hfe]
      exact excBindErr _ _
    rw [hts]
    refine ⟨iff_of_true (by simp [Except.isOk, Except.toBool]) (by tauto), iff_of_true rfl hbad,
      iff_of_false (fun hc => hmsg (by simp at hc)) (fun hc => hc.1 hbad)⟩
  · rcases toSwitch_total entry fu.2 hp2 with ⟨hendinv, hte⟩ | ⟨hgood2, tu, htok⟩
    · have hts : WindowExpression.ToString entry schema function_name =
          Except.error (RenderErr.internalException "Unrecognized TO in WindowExpression") := by
        rw [ToString_def, hfok, excBindOk, hte]
        exact excBindErr _ _
      rw [hts]
      refine ⟨iff_of_true (by simp [Except.isOk, Except.toBool]) (Or.inr (Or.inr hendinv)),
        iff_of_false (fun hc => hmsg (by simpa using hc.symm)) hgood,
        iff_of_true rfl ⟨hgood, hendinv⟩⟩
    · have hts : WindowExpression.ToString entry schema function_name =
          Except.ok (WindowExpression.header entry schema function_name ++
            (WindowExpression.partitionOrders entry).1 ++
            WindowExpression.frameText (WindowExpression.partitionOrders entry).2
              (WindowExpression.excludeForce entry fu.1 tu.1 tu.2).1
              (WindowExpression.excludeForce entry fu.1 tu.1 tu.2).2.1
              (WindowExpression.excludeForce entry fu.1 tu.1 tu.2).2.2 ++
            WindowExpression.excludeText entry ++ ")") := by
        rw [ToString_def, hfok, excBindOk, htok]
        exact excBindOk _ _
      rw [hts]
      refine ⟨iff_of_false (by simp [Except.isOk, Except.toBool]) ?_,
        iff_of_false (by simp) hgood,
        iff_of_false (by simp) (fun hc => hgood2 hc.2)⟩
      rintro (hx | hx | hx)
      · exact hgood (Or.inl hx)
      · exact hgood (Or.inr hx)
      · exact hgood2 hx

/-- Witness for the amended C4 at the valid mixed-units spec. -/
theorem spec_c4_amended_witness :
    ((WindowExpression.ToString mixedUnitsEntry "" "func").isOk = false ↔
      mixedUnitsEntry.start = WindowBoundary.INVALID ∨
        mixedUnitsEntry.start = WindowBoundary.UNBOUNDED_FOLLOWING ∨
        mixedUnitsEntry.end_ = WindowBoundary.INVALID) ∧
    (WindowExpression.ToString mixedUnitsEntry "" "func" =
        Except.error (RenderErr.internalException "Unrecognized FROM in WindowExpression") ↔
      mixedUnitsEntry.start = WindowBoundary.INVALID ∨
        mixedUnitsEntry.start = WindowBoundary.UNBOUNDED_FOLLOWING) ∧
    (WindowExpression.ToString mixedUnitsEntry "" "func" =
        Except.error (RenderErr.internalException "Unrecognized TO in WindowExpression") ↔
      ¬(mixedUnitsEntry.start = WindowBoundary.INVALID ∨
          mixedUnitsEntry.start = WindowBoundary.UNBOUNDED_FOLLOWING) ∧
        mixedUnitsEntry.end_ = WindowBoundary.INVALID) :=
  spec_c4_amended mixedUnitsEntry "" "func" (by decide)

/-- `(o.map f).toList = o.toList.map f`. -/
theorem optionToListMap (f : Nat → Nat) (o : Option Nat) :
    (o.map f).toList = o.toList.map f := by
  cases o <;> rfl

/-- Two heaps that agree on every handle of `s` interpret `s` identically. -/
theorem interp_congr (h₁ h₂ : Heap) (s : WindowSpecH)
    (hag : ∀ a ∈ handles s, h₁ a = h₂ a) : interp h₁ s = interp h₂ s := by
  have hin : ∀ l : List Nat, (∀ a ∈ l, a ∈ handles s) → l.map h₁ = l.map h₂ :=
    fun l hl => List.map_congr_left (fun a ha => hag a (hl a ha))
  have hop : ∀ o : Option Nat, (∀ a ∈ o.toList, a ∈ handles s) → o.map h₁ = o.map h₂ := by
    intro o ho
    cases o with
    | none => rfl
    | some x => simp [hag x (ho x (by simp))]
  simp only [interp, WindowSpecV.mk.injEq]
  refine ⟨trivial, trivial, trivial, ?_, ?_, ?_, ?_, ?_, ?_, ?_, ?_, ?_, trivial, trivial,
    trivial, trivial, trivial⟩
  · exact hin s.children (fun a ha => by simp [handles]; tauto)
  · exact hin s.partitions (fun a ha => by simp [handles]; tauto)
  · exact hin s.orders (fun a ha => by simp [handles]; tauto)
  · exact hin s.arg_orders (fun a ha => by simp [handles]; tauto)
  · exact hop s.filter_expr (fun a ha => by simp [handles]; simp at ha; tauto)
  · exact hop s.start_expr (fun a ha => by simp [handles]; simp at ha; tauto)
  · exact hop s.end_expr (fun a ha => by simp [handles]; simp at ha; tauto)
  · exact hop s.offset_expr (fun a ha => by simp [handles]; simp at ha; tauto)
  · exact hop s.default_expr (fun a ha => by simp [handles]; simp at ha; tauto)

/-- Reading a copied address: the fresh address `x + base` holds the content
of the original node `x`. -/
theorem copyHeap_shift (h : Heap) (base x : Nat) : copyHeap h base (x + base) = h x := by
  have hnot : ¬ (x + base < base) := by omega
  have hsub : x + base - base = x := by omega
  simp [copyHeap, hnot, hsub]

/-- Addresses below `base` are untouched by the copy. -/
theorem copyHeap_low (h : Heap) (base x : Nat) (hx : x < base) : copyHeap h base x = h x := by
  simp [copyHeap, hx]

/-- Interpreting the copy in the copied heap gives the original's value. -/
theorem interp_Copy (h : Heap) (s : WindowSpecH) (base : Nat) :
    interp (copyHeap h base) (Copy s base) = interp h s := by
  have hl : ∀ l : List Nat, (l.map (· + base)).map (copyHeap h base) = l.map h := by
    intro l
    rw [List.map_map]
    exact List.map_congr_left (fun x _ => copyHeap_shift h base x)
  have ho : ∀ o : Option Nat, (o.map (· + base)).map (copyHeap h base) = o.map h := by
    intro o
    cases o with
    | none => rfl
    | some x => simp [copyHeap_shift h base x]
  simp only [interp, Copy, WindowSpecV.mk.injEq]
  exact ⟨trivial, trivial, trivial, hl s.children, hl s.partitions, hl s.orders,
    hl s.arg_orders, ho s.filter_expr, ho s.start_expr, ho s.end_expr, ho s.offset_expr,
    ho s.default_expr, trivial, trivial, trivial, trivial, trivial⟩

/-- The handles of the copy are the shifted handles of the original. -/
theorem handles_Copy (s : WindowSpecH) (base : Nat) :
    handles (Copy s base) = (handles s).map (· + base) := by
  simp [handles, Copy, optionToListMap]

/-- C10: for every well-formed spec `s` (all handles below the fresh base),
the deep copy compares `Equal` to the original under the copied heap, every
address it owns is fresh (none is shared with `s`), and mutating any
address owned by the copy leaves the original's value untouched. -/
theorem spec_c10 (h : Heap) (s : WindowSpecH) (base a : Nat) (v : String)
    (hb : ∀ x ∈ handles s, x < base)
    (ha : a ∈ handles (Copy s base)) :
    Equal (copyHeap h base) s (Copy s base) = true ∧
    base ≤ a ∧ a ∉ handles s ∧
    interp (Function.update (copyHeap h base) a v) s = interp (copyHeap h base) s := by
  rw [handles_Copy] at ha
  obtain ⟨x, hx, hxa⟩ := List.mem_map.mp ha
  have hba : base ≤ a := by omega
  have hnot : a ∉ handles s := fun hmem => by have := hb a hmem; omega
  have h1 : interp (copyHeap h base) s = interp h s :=
    interp_congr _ _ _ (fun y hy => copyHeap_low h base y (hb y hy))
  have h2 : interp (copyHeap h base) (Copy s base) = interp h s := interp_Copy h s base
  refine ⟨?_, hba, hnot, ?_⟩
  · simp [Equal, h1, h2]
  · apply interp_congr
    intro y hy
    have hne : y ≠ a := by have := hb y hy; omega
    exact Function.update_noteq hne v (copyHeap h base)

/-- Witness for C10 at the four-node sample spec with base 10, mutating the
copied argument node. -/
theorem spec_c10_witness :
    Equal (copyHeap sampleHeap 10) sampleSpecH (Copy sampleSpecH 10) = true ∧
    10 ≤ 10 ∧ 10 ∉ handles sampleSpecH ∧
    interp (Function.update (copyHeap sampleHeap 10) 10 "mutated") sampleSpecH =
      interp (copyHeap sampleHeap 10) sampleSpecH :=
  spec_c10 sampleHeap sampleSpecH 10 10 "mutated" (by decide) (by decide)
